import Mathlib

/-!
Verification development for the txtchecker domain-probing engine
(src/txtchecker.py).  The Python functions are shallowly embedded as pure
Lean functions; shared mutable state (`stop_event`, `domain_count`,
`successful_domains`) becomes an explicit state record threaded through the
worker loops, and external effects (the DNS resolver, the random source,
the clock / stop schedule, the thread scheduler) become oracle parameters.
-/

namespace TxtChecker

/-! ## Python string stripping and the match predicate (check_txt, line 135) -/

/-- Whitespace test used by Python `str.strip()` (restricted to the ASCII
whitespace characters, which are the ones relevant here). -/
def pyIsSpace (c : Char) : Bool :=
  c == ' ' || c == '\t' || c == '\n' || c == '\r' || c == '\x0b' || c == '\x0c'

/-- Drop trailing characters satisfying `pyIsSpace`. -/
def dropTrailingSpace (l : List Char) : List Char :=
  (l.reverse.dropWhile pyIsSpace).reverse

/-- Python `str.strip()` on a character list: drop leading and trailing
whitespace. -/
def stripList (l : List Char) : List Char :=
  dropTrailingSpace (l.dropWhile pyIsSpace)

/-- Python `value.strip()`. -/
def pyStrip (s : String) : String :=
  String.mk (stripList s.toList)

/-- The match predicate of `check_txt` (txtchecker.py line 135):
`txt.strip() == txt_record_to_check`. -/
def matchesPred (value target : String) : Bool :=
  pyStrip value == target

/-! ## Candidate generators (generate_domains, generate_random_domain) -/

/-- `generate_domains(word, tlds)` (txtchecker.py lines 106-108). -/
def generate_domains (word : String) (tlds : List String) : List String :=
  tlds.map (fun tld => word ++ tld)

/-- The 26 lowercase ASCII letters (`string.ascii_lowercase`). -/
def asciiLowercase : List Char :=
  "abcdefghijklmnopqrstuvwxyz".toList

/-- `random.randint(lo, hi)` with the random source given as an oracle value:
the result is `lo + seed % (hi + 1 - lo)`, which ranges over `[lo, hi]`. -/
def randint (lo hi seed : Nat) : Nat :=
  lo + seed % (hi + 1 - lo)

/-- One draw of `random.choices(string.ascii_lowercase, k=...)`: the oracle
value indexes into the 26-letter population. -/
def randomChoice (seed : Nat) : Char :=
  asciiLowercase.getD (seed % 26) 'a'

/-- `generate_random_domain(tlds)` (txtchecker.py lines 110-114), with the
random source given as oracles: `lenSeed` drives `random.randint(3, 8)` and
`charSeed i` drives the choice of the i-th letter. -/
def generate_random_domain (tlds : List String) (lenSeed : Nat)
    (charSeed : Nat → Nat) : List String :=
  let length := randint 3 8 lenSeed
  let word := String.mk ((List.range length).map (fun i => randomChoice (charSeed i)))
  tlds.map (fun tld => word ++ tld)

/-! ## Facts about stripping -/

theorem dropWhile_head_not (p : Char → Bool) (l : List Char) (c : List Char)
    (hd : Char) (h : l.dropWhile p = hd :: c) : p hd = false := by
  induction l with
  | nil => simp [List.dropWhile] at h
  | cons a t ih =>
    rw [List.dropWhile_cons] at h
    by_cases hp : p a = true
    · simp [hp] at h
      exact ih h
    · simp [hp] at h
      rw [← h.1]
      simpa using hp

theorem dropWhile_getLast? (p : Char → Bool) (l : List Char)
    (h : l.dropWhile p ≠ []) : (l.dropWhile p).getLast? = l.getLast? := by
  induction l with
  | nil => simp [List.dropWhile] at h
  | cons a t ih =>
    rw [List.dropWhile_cons]
    by_cases hp : p a = true
    · rw [List.dropWhile_cons, if_pos hp] at h
      rw [if_pos hp, ih h]
      cases ht : t with
      | nil => rw [ht] at h; simp [List.dropWhile] at h
      | cons b t2 => exact (List.getLast?_cons_cons).symm
    · rw [if_neg hp]

/-- Test whether a character list starts or ends with Python whitespace. -/
def startsOrEndsWithSpace : List Char → Bool
  | [] => false
  | c :: rest => pyIsSpace c || pyIsSpace (rest.getLastD c)

theorem stripList_head_not_space (l : List Char) (hd : Char) (c : List Char)
    (h : stripList l = hd :: c) : pyIsSpace hd = false := by
  unfold stripList dropTrailingSpace at h
  set m := l.dropWhile pyIsSpace with hm
  have hne : (m.reverse.dropWhile pyIsSpace) ≠ [] := by
    intro he
    rw [he] at h
    simp at h
  -- the head of the stripped list is the last of `m.reverse.dropWhile`,
  -- which is the last of `m.reverse`, i.e. the head of `m`.
  have hlast : (m.reverse.dropWhile pyIsSpace).getLast? = m.reverse.getLast? :=
    dropWhile_getLast? _ _ hne
  have hhead : ((m.reverse.dropWhile pyIsSpace).reverse).head? = some hd := by
    rw [h]; rfl
  rw [List.head?_reverse, hlast, List.getLast?_reverse] at hhead
  cases hm' : m with
  | nil => rw [hm'] at hhead; simp at hhead
  | cons a t =>
    rw [hm'] at hhead
    simp at hhead
    rw [← hhead]
    exact dropWhile_head_not pyIsSpace l t a (hm.symm.trans hm')

theorem stripList_getLast_not_space (l : List Char) (hd : Char) (c : List Char)
    (h : stripList l = hd :: c) : pyIsSpace (c.getLast?.getD hd) = false := by
  unfold stripList dropTrailingSpace at h
  have hlast : (hd :: c).getLast? = some (c.getLast?.getD hd) := List.getLast?_cons
  have hlast2 : ((l.dropWhile pyIsSpace).reverse.dropWhile pyIsSpace).reverse.getLast?
      = some (c.getLast?.getD hd) := by rw [h, hlast]
  rw [List.getLast?_reverse] at hlast2
  cases hk : (l.dropWhile pyIsSpace).reverse.dropWhile pyIsSpace with
  | nil => rw [hk] at hlast2; simp at hlast2
  | cons d t =>
    rw [hk] at hlast2
    simp at hlast2
    rw [← hlast2]
    exact dropWhile_head_not pyIsSpace _ t d hk

theorem stripList_no_edge_space (l : List Char) :
    startsOrEndsWithSpace (stripList l) = false := by
  cases h : stripList l with
  | nil => rfl
  | cons hd c =>
    simp [startsOrEndsWithSpace, stripList_head_not_space l hd c h,
      stripList_getLast_not_space l hd c h]

theorem randomChoice_mem (s : Nat) : randomChoice s ∈ asciiLowercase := by
  have hlen : asciiLowercase.length = 26 := rfl
  have h : s % 26 < asciiLowercase.length := by
    rw [hlen]
    exact Nat.mod_lt _ (by norm_num)
  unfold randomChoice
  rw [List.getD_eq_getElem?_getD, List.getElem?_eq_getElem h]
  exact List.getElem_mem h

/-! ## Claim theorems about the match predicate and the generators -/

/-- C8: the match predicate returns `true` exactly when the fetched value,
with leading and trailing whitespace trimmed, is equal to the target string;
since the comparison is plain string equality after trimming, any difference
in case, punctuation or internal whitespace yields `false`. -/
theorem c8_matches_iff_strip_eq (value target : String) :
    matchesPred value target = true ↔ pyStrip value = target := by
  simp [matchesPred]

/-- C10: when the target string itself carries leading or trailing
whitespace, no fetched value whatsoever matches it, because only the fetched
value is trimmed before the exact-equality comparison and a trimmed string
never starts or ends with whitespace. -/
theorem c10_padded_target_never_matches (target : String)
    (h : startsOrEndsWithSpace target.toList = true) (value : String) :
    matchesPred value target = false := by
  cases hb : matchesPred value target with
  | false => rfl
  | true =>
    have he : pyStrip value = target := by simpa [matchesPred] using hb
    have hs := stripList_no_edge_space value.toList
    rw [← he] at h
    have hl : (pyStrip value).toList = stripList value.toList := rfl
    rw [hl, hs] at h
    cases h

/-- Witness for C10 at the concrete target `" x"` (leading space) and the
fetched value `"x"`, whose trimmed form is identical to the target's core. -/
theorem c10_padded_target_never_matches_witness :
    startsOrEndsWithSpace (" x".toList) = true ∧ matchesPred "x" " x" = false :=
  ⟨by decide, c10_padded_target_never_matches " x" (by decide) "x"⟩

/-- C9: every invocation of the random candidate generator — whatever the
random source yields — produces exactly one candidate per configured TLD, in
TLD order, each consisting of a single random label of length between 3 and
8 made only of lowercase ASCII letters followed by the corresponding TLD. -/
theorem c9_random_candidate_shape (tlds : List String) (lenSeed : Nat)
    (charSeed : Nat → Nat) :
    ∃ label : String,
      3 ≤ label.length ∧ label.length ≤ 8 ∧
      (∀ c ∈ label.toList, c ∈ asciiLowercase) ∧
      generate_random_domain tlds lenSeed charSeed =
        tlds.map (fun tld => label ++ tld) := by
  refine ⟨String.mk ((List.range (randint 3 8 lenSeed)).map
    (fun i => randomChoice (charSeed i))), ?_, ?_, ?_, rfl⟩
  · have hlen : (String.mk ((List.range (randint 3 8 lenSeed)).map
        (fun i => randomChoice (charSeed i)))).length = randint 3 8 lenSeed := by
      rw [← String.length_data]
      simp
    rw [hlen]
    unfold randint
    omega
  · have hlen : (String.mk ((List.range (randint 3 8 lenSeed)).map
        (fun i => randomChoice (charSeed i)))).length = randint 3 8 lenSeed := by
      rw [← String.length_data]
      simp
    rw [hlen]
    have : lenSeed % (8 + 1 - 3) < 6 := Nat.mod_lt _ (by norm_num)
    unfold randint
    omega
  · intro c hc
    have hc' : c ∈ (List.range (randint 3 8 lenSeed)).map
        (fun i => randomChoice (charSeed i)) := hc
    rcases List.mem_map.mp hc' with ⟨i, _, hi⟩
    rw [← hi]
    exact randomChoice_mem (charSeed i)

/-! ## Resolver Client: fetch_txt_records (txtchecker.py lines 116-127)

The DNS library is an external effect; its outcome for one query is an
oracle value.  A successful answer is a list of resource records, each a
list of already-decoded character-string segments (`rdata.strings`).  A
failure carries the exception kind raised by the library.  The Python
`except` clause catches exactly four kinds — `NoAnswer`, `NXDOMAIN`,
`Timeout`, `NoNameservers`; every other exception escapes the function
(the trailing `return []` on line 127 sits after the `try` statement and
is unreachable on the exception path), which the embedding renders as
`Except.error`. -/

/-- Exception kinds a TXT query can raise; `other` covers every exception
outside the four named in the `except` clause (e.g. `YXDOMAIN`). -/
inductive DnsErrorKind where
  | noAnswer
  | nxdomain
  | timeout
  | noNameservers
  | other (name : String)
deriving DecidableEq, Repr

/-- Whether `fetch_txt_records`'s `except` clause (line 125) catches the
exception. -/
def isCaughtError : DnsErrorKind → Bool
  | .noAnswer => true
  | .nxdomain => true
  | .timeout => true
  | .noNameservers => true
  | .other _ => false

/-- Outcome of `resolver.resolve(domain, 'TXT')` for one query: either the
answer set (one entry per resource record, each a list of decoded
character-string segments) or a raised exception. -/
inductive ResolveOutcome where
  | answers (records : List (List String))
  | failure (e : DnsErrorKind)
deriving DecidableEq, Repr

/-- `fetch_txt_records(domain, resolver)` (txtchecker.py lines 116-127) on a
given resolver outcome: on an answer, append the decode of every
character-string segment of every record; on a caught exception return `[]`;
any other exception propagates (`Except.error`). -/
def fetch_txt_records : ResolveOutcome → Except DnsErrorKind (List String)
  | .answers records => .ok records.flatten
  | .failure e => if isCaughtError e then .ok [] else .error e

/-- C3 (code bug evidence): an exception outside the four caught kinds
propagates out of `fetch_txt_records` instead of being absorbed as an empty
record list — evaluated here at a `YXDOMAIN`-style failure.  The four
expected outcomes, by contrast, are absorbed. -/
theorem c3_uncaught_error_propagates :
    fetch_txt_records (.failure (.other "YXDOMAIN"))
        = .error (.other "YXDOMAIN") ∧
      fetch_txt_records (.failure (.other "YXDOMAIN")) ≠ .ok [] ∧
      fetch_txt_records (.failure .noAnswer) = .ok [] ∧
      fetch_txt_records (.failure .nxdomain) = .ok [] ∧
      fetch_txt_records (.failure .timeout) = .ok [] ∧
      fetch_txt_records (.failure .noNameservers) = .ok [] := by
  refine ⟨rfl, ?_, rfl, rfl, rfl, rfl⟩
  intro hcontra
  simp [fetch_txt_records, isCaughtError] at hcontra

/-- C4 (counterexample): a single resource record composed of two
character-string segments is returned as two separate strings, not as one
concatenated string — the answer list has one entry per segment, so its
length (2) differs from the record count (1). -/
theorem c4_segments_not_concatenated :
    fetch_txt_records (.answers [["abc", "def"]]) = .ok ["abc", "def"] ∧
      ["abc", "def"].length ≠ [["abc", "def"]].length := by
  refine ⟨rfl, ?_⟩
  decide

/-- C4 (amended): on a successful answer, `fetch_txt_records` returns every
decoded character-string segment as its own entry — the flattening of the
records — so the number of returned strings is the total number of segments
across all records, not the number of records. -/
theorem c4_amended_one_string_per_segment (records : List (List String)) :
    fetch_txt_records (.answers records) = .ok records.flatten ∧
      records.flatten.length = (records.map List.length).sum := by
  exact ⟨rfl, List.length_flatten records⟩


/-! ## Shared run state and the worker loops (txtchecker.py lines 129-164)

The module-level mutable globals become an explicit state record threaded
through the loops.  Two external effects are oracles:

* `dns : String → List String` gives, for each domain, the record list
  `fetch_txt_records` returns on its normal path (empty when the lookup
  failed with a caught exception);
* `stopAt : Nat → Bool` is the stop-flag schedule: the other threads
  (signal handler, coordinator) may set `stop_event` at any moment, so each
  read of `stop_event.is_set()` is an observation of this schedule at the
  current observation index, which `time` counts.  The flag is one-way, so
  only monotone schedules correspond to real runs.

The state also carries `completedProbes`, an instrumentation counter (not a
program variable) counting the probes whose DNS lookup actually ran — i.e.
the probe attempts that completed, matched or not. -/

structure RunState where
  time : Nat
  domainCount : Nat
  completedProbes : Nat
  successfulDomains : List String
deriving DecidableEq, Repr

def initialRunState : RunState :=
  { time := 0, domainCount := 0, completedProbes := 0, successfulDomains := [] }

/-- `check_txt(domain, resolver)` (txtchecker.py lines 129-139): observe the
stop flag and bail out if it is set (the probe is skipped); otherwise fetch
the TXT values (the probe completes) and scan them in order — on the first
value whose stripped form equals the target, append the domain to the shared
`successful_domains` and return `True` without checking further values. -/
def check_txt (target : String) (dns : String → List String)
    (stopAt : Nat → Bool) (domain : String) (s : RunState) : Bool × RunState :=
  if stopAt s.time then (false, { s with time := s.time + 1 })
  else
    let s1 := { s with time := s.time + 1,
                       completedProbes := s.completedProbes + 1 }
    match (dns domain).find? (fun txt => matchesPred txt target) with
    | some _ =>
        (true, { s1 with successfulDomains := s1.successfulDomains ++ [domain] })
    | none => (false, s1)

/-- The `for domain in domains:` body shared by `check_domains` (lines
146-151) and `check_domains_from_word` (lines 158-163): observe the stop
flag and break if set; otherwise increment `domain_count`, run `check_txt`,
and append the domain a second time when it matched (lines 150-151 and
162-163 append on top of the append already done inside `check_txt`). -/
def probeDomains (target : String) (dns : String → List String)
    (stopAt : Nat → Bool) : List String → RunState → RunState
  | [], s => s
  | domain :: rest, s =>
    if stopAt s.time then { s with time := s.time + 1 }
    else
      let s1 := { s with time := s.time + 1, domainCount := s.domainCount + 1 }
      let r := check_txt target dns stopAt domain s1
      let s3 := if r.1 then
          { r.2 with successfulDomains := r.2.successfulDomains ++ [domain] }
        else r.2
      probeDomains target dns stopAt rest s3

/-- `check_domains(tlds, resolver, auto=True)` (txtchecker.py lines
141-152), one worker: loop while the stop flag is unset, each iteration
probing one random batch.  `batches k` is the batch generated when `k`
iterations of fuel remain (`generate_random_domain` output under some
seeds); `fuel` bounds the number of `while` iterations modelled. -/
def check_domains (target : String) (dns : String → List String)
    (stopAt : Nat → Bool) (batches : Nat → List String) :
    Nat → RunState → RunState
  | 0, s => s
  | fuel + 1, s =>
    if stopAt s.time then { s with time := s.time + 1 }
    else
      check_domains target dns stopAt batches fuel
        (probeDomains target dns stopAt (batches fuel)
          { s with time := s.time + 1 })

/-- `check_domains_from_word(word, tlds, resolver)` (txtchecker.py lines
154-164): probe the word's TLD expansion and return `successful_domains` —
the shared global list, not a per-task list. -/
def check_domains_from_word (target : String) (dns : String → List String)
    (stopAt : Nat → Bool) (word : String) (tlds : List String)
    (s : RunState) : List String × RunState :=
  let s2 := probeDomains target dns stopAt (generate_domains word tlds) s
  (s2.successfulDomains, s2)

/-- Exhaustive mode (txtchecker.py lines 247-260) in the sequential
schedule: run one `check_domains_from_word` task per word, in word order,
collecting each task's returned list.  Sequential execution is one valid
schedule of the thread pool. -/
def runExhaustive (target : String) (dns : String → List String)
    (stopAt : Nat → Bool) (tlds : List String) : List String → RunState →
    List (List String) × RunState
  | [], s => ([], s)
  | w :: ws, s =>
    let r := check_domains_from_word target dns stopAt w tlds s
    let rest := runExhaustive target dns stopAt tlds ws r.2
    (r.1 :: rest.1, rest.2)

/-- `print_final_output` (txtchecker.py lines 180-189): the lines written to
`successful_domains.txt`, or `none` when the list is empty and no file is
written. -/
def outputFileLines (s : RunState) : Option (List String) :=
  if s.successfulDomains.isEmpty then none else some s.successfulDomains

/-- The stop-flag schedule of a run in which the flag is never set (no
interrupt, no time bound). -/
def neverStop : Nat → Bool := fun _ => false

/-- The C2/C5 scenario's resolver oracle: only `acme.se` carries the target
TXT value `"v=target"`. -/
def c2Dns : String → List String :=
  fun domain => if domain = "acme.se" then ["v=target"] else []

/-- C2 (code bug evidence): in exhaustive mode over words `["acme", "foo"]`
and TLDs `[".com", ".se"]` where only `acme.se` carries the target value,
the matching domain is appended twice — once inside `check_txt` (line 137)
and once more by the caller (line 163) — so the final `successful_domains`
is `["acme.se", "acme.se"]` and the output file gets two lines, not the
single line `acme.se` the claim requires. -/
theorem c2_match_appended_twice :
    (runExhaustive "v=target" c2Dns neverStop [".com", ".se"]
        ["acme", "foo"] initialRunState).2.successfulDomains
      = ["acme.se", "acme.se"] ∧
    outputFileLines (runExhaustive "v=target" c2Dns neverStop [".com", ".se"]
        ["acme", "foo"] initialRunState).2 = some ["acme.se", "acme.se"] ∧
    (["acme.se", "acme.se"] : List String) ≠ ["acme.se"] := by
  refine ⟨by decide, by decide, by decide⟩

/-- C5 (code bug evidence): in the same scenario, the task for `"foo"` —
none of whose own candidates `foo.com`, `foo.se` matches — still returns
the non-empty shared `successful_domains` list, so it reports success on
the strength of `acme`'s match, contradicting the claim that a task whose
candidates all failed reports no success. -/
theorem c5_task_reports_others_matches :
    ((runExhaustive "v=target" c2Dns neverStop [".com", ".se"]
        ["acme", "foo"] initialRunState).1.getD 1 [])
      = ["acme.se", "acme.se"] ∧
    ((runExhaustive "v=target" c2Dns neverStop [".com", ".se"]
        ["acme", "foo"] initialRunState).1.getD 1 []) ≠ [] ∧
    (∀ d ∈ generate_domains "foo" [".com", ".se"],
      (c2Dns d).find? (fun txt => matchesPred txt "v=target") = none) := by
  refine ⟨by decide, by decide, by decide⟩

/-! ## C6: the processed count versus completed probes

`domain_count += 1` happens after the for-loop's stop check (line 149) but
before `check_txt`'s own stop check (line 131): a candidate whose probe is
skipped by the second check has already been counted.  The invariant below
captures the corrected relationship under any monotone stop schedule. -/

/-- A stop schedule that corresponds to a real run: `stop_event` is one-way,
so once observed set it stays set. -/
def StopMono (stopAt : Nat → Bool) : Prop :=
  ∀ m n, m ≤ n → stopAt m = true → stopAt n = true

/-- Counting invariant: the processed count equals the completed-probe
count, or exceeds it by exactly one — and in the latter case the stop flag
is already set (the excess candidate was counted and then skipped). -/
def countInv (stopAt : Nat → Bool) (s : RunState) : Prop :=
  s.domainCount = s.completedProbes ∨
    (s.domainCount = s.completedProbes + 1 ∧ stopAt s.time = true)

/-- The `if check_txt(...): successful_domains.append(domain)` tail of one
for-loop iteration, factored out of `probeDomains` (to which it is
definitionally equal). -/
def probeBody (target : String) (dns : String → List String)
    (stopAt : Nat → Bool) (domain : String) (s : RunState) : RunState :=
  let r := check_txt target dns stopAt domain s
  if r.1 then { r.2 with successfulDomains := r.2.successfulDomains ++ [domain] }
  else r.2

theorem probeDomains_cons (target : String) (dns : String → List String)
    (stopAt : Nat → Bool) (d : String) (rest : List String) (s : RunState) :
    probeDomains target dns stopAt (d :: rest) s =
      if stopAt s.time then { s with time := s.time + 1 }
      else
        probeDomains target dns stopAt rest
          (probeBody target dns stopAt d
            { s with time := s.time + 1, domainCount := s.domainCount + 1 }) :=
  rfl

theorem check_txt_skip (target : String) (dns : String → List String)
    (stopAt : Nat → Bool) (domain : String) (s : RunState)
    (h : stopAt s.time = true) :
    check_txt target dns stopAt domain s = (false, { s with time := s.time + 1 }) := by
  unfold check_txt
  rw [if_pos h]

theorem check_txt_run_counts (target : String) (dns : String → List String)
    (stopAt : Nat → Bool) (domain : String) (s : RunState)
    (h : stopAt s.time = false) :
    ((check_txt target dns stopAt domain s).2.domainCount = s.domainCount) ∧
      ((check_txt target dns stopAt domain s).2.completedProbes
        = s.completedProbes + 1) ∧
      ((check_txt target dns stopAt domain s).2.time = s.time + 1) := by
  unfold check_txt
  rw [if_neg (by simp [h])]
  split <;> exact ⟨rfl, rfl, rfl⟩

theorem check_txt_domainCount (target : String) (dns : String → List String)
    (stopAt : Nat → Bool) (domain : String) (s : RunState) :
    (check_txt target dns stopAt domain s).2.domainCount = s.domainCount := by
  unfold check_txt
  split
  · rfl
  · split <;> rfl

theorem probeBody_counts (target : String) (dns : String → List String)
    (stopAt : Nat → Bool) (domain : String) (s : RunState) :
    ((probeBody target dns stopAt domain s).domainCount
        = (check_txt target dns stopAt domain s).2.domainCount) ∧
      ((probeBody target dns stopAt domain s).completedProbes
        = (check_txt target dns stopAt domain s).2.completedProbes) ∧
      ((probeBody target dns stopAt domain s).time
        = (check_txt target dns stopAt domain s).2.time) := by
  by_cases h : (check_txt target dns stopAt domain s).1 = true
  · simp [probeBody, h]
  · simp [probeBody, h]

theorem probeDomains_inv (target : String) (dns : String → List String)
    (stopAt : Nat → Bool) (hmono : StopMono stopAt) (ds : List String)
    (s : RunState) (hInv : countInv stopAt s) :
    countInv stopAt (probeDomains target dns stopAt ds s) := by
  induction ds generalizing s with
  | nil => exact hInv
  | cons d rest ih =>
    rw [probeDomains_cons]
    by_cases hstop : stopAt s.time = true
    · rw [if_pos hstop]
      rcases hInv with h0 | ⟨h1, _⟩
      · exact Or.inl h0
      · exact Or.inr ⟨h1, hmono _ _ (Nat.le_succ _) hstop⟩
    · rw [if_neg hstop]
      have h0 : s.domainCount = s.completedProbes := by
        rcases hInv with h0 | ⟨_, hst⟩
        · exact h0
        · exact absurd hst hstop
      apply ih
      have hstopf : stopAt s.time = false := by
        cases hb : stopAt s.time
        · rfl
        · exact absurd hb hstop
      by_cases hstop2 : stopAt (s.time + 1) = true
      · -- the probe is skipped by check_txt's own stop check, but counted
        have hskip := check_txt_skip target dns stopAt d
          { s with time := s.time + 1, domainCount := s.domainCount + 1 } hstop2
        have hcounts := probeBody_counts target dns stopAt d
          { s with time := s.time + 1, domainCount := s.domainCount + 1 }
        rw [hskip] at hcounts
        refine Or.inr ⟨?_, ?_⟩
        · rw [hcounts.1, hcounts.2.1]
          simp [h0]
        · rw [hcounts.2.2]
          exact hmono _ _ (Nat.le_succ _) hstop2
      · have hstop2f : stopAt (s.time + 1) = false := by
          cases hb : stopAt (s.time + 1)
          · rfl
          · exact absurd hb hstop2
        have hrun := check_txt_run_counts target dns stopAt d
          { s with time := s.time + 1, domainCount := s.domainCount + 1 } hstop2f
        have hcounts := probeBody_counts target dns stopAt d
          { s with time := s.time + 1, domainCount := s.domainCount + 1 }
        refine Or.inl ?_
        rw [hcounts.1, hcounts.2.1, hrun.1, hrun.2.1]
        simp [h0]

theorem check_domains_inv (target : String) (dns : String → List String)
    (stopAt : Nat → Bool) (hmono : StopMono stopAt)
    (batches : Nat → List String) (fuel : Nat) (s : RunState)
    (hInv : countInv stopAt s) :
    countInv stopAt (check_domains target dns stopAt batches fuel s) := by
  induction fuel generalizing s with
  | zero => exact hInv
  | succ n ih =>
    rw [check_domains]
    by_cases hstop : stopAt s.time = true
    · rw [if_pos hstop]
      rcases hInv with h0 | ⟨h1, _⟩
      · exact Or.inl h0
      · exact Or.inr ⟨h1, hmono _ _ (Nat.le_succ _) hstop⟩
    · rw [if_neg hstop]
      apply ih
      apply probeDomains_inv target dns stopAt hmono
      rcases hInv with h0 | ⟨_, hst⟩
      · exact Or.inl h0
      · exact absurd hst hstop

theorem probeDomains_count_mono (target : String) (dns : String → List String)
    (stopAt : Nat → Bool) (ds : List String) (s : RunState) :
    s.domainCount ≤ (probeDomains target dns stopAt ds s).domainCount := by
  induction ds generalizing s with
  | nil => exact Nat.le_refl _
  | cons d rest ih =>
    rw [probeDomains_cons]
    by_cases hstop : stopAt s.time = true
    · rw [if_pos hstop]
    · rw [if_neg hstop]
      refine Nat.le_trans (Nat.le_succ s.domainCount) ?_
      have hb := (probeBody_counts target dns stopAt d
        { s with time := s.time + 1, domainCount := s.domainCount + 1 }).1
      have hc := check_txt_domainCount target dns stopAt d
        { s with time := s.time + 1, domainCount := s.domainCount + 1 }
      refine Nat.le_trans (Nat.le_of_eq ?_) (ih _)
      rw [hb, hc]

theorem check_domains_count_mono (target : String) (dns : String → List String)
    (stopAt : Nat → Bool) (batches : Nat → List String) (fuel : Nat)
    (s : RunState) :
    s.domainCount ≤ (check_domains target dns stopAt batches fuel s).domainCount := by
  induction fuel generalizing s with
  | zero => exact Nat.le_refl _
  | succ n ih =>
    rw [check_domains]
    by_cases hstop : stopAt s.time = true
    · rw [if_pos hstop]
    · rw [if_neg hstop]
      refine Nat.le_trans ?_ (ih _)
      exact probeDomains_count_mono target dns stopAt (batches n)
        { s with time := s.time + 1 }

/-- C6 (amended): over a worker's whole run, under any monotone stop
schedule, the processed count is non-decreasing; a candidate is counted
when it passes the for-loop's stop check, before the probe, so at the end
the count equals the number of completed probe attempts or exceeds it by
exactly one — the excess occurring when the stop flag was set between a
candidate's loop check and `check_txt`'s own stop check, so that the
counted candidate's probe was skipped. -/
theorem c6_amended_count_tracks_completed (target : String)
    (dns : String → List String) (stopAt : Nat → Bool)
    (hmono : StopMono stopAt) (batches : Nat → List String) (fuel : Nat)
    (s0 : RunState) (h0 : s0.domainCount = s0.completedProbes) :
    s0.domainCount
        ≤ (check_domains target dns stopAt batches fuel s0).domainCount ∧
      ((check_domains target dns stopAt batches fuel s0).domainCount
          = (check_domains target dns stopAt batches fuel s0).completedProbes ∨
        (check_domains target dns stopAt batches fuel s0).domainCount
          = (check_domains target dns stopAt batches fuel s0).completedProbes
            + 1) := by
  constructor
  · exact check_domains_count_mono target dns stopAt batches fuel s0
  · have h := check_domains_inv target dns stopAt hmono batches fuel s0
      (Or.inl h0)
    rcases h with h | ⟨h, _⟩
    · exact Or.inl h
    · exact Or.inr h

/-- Witness for C6 (amended) on a concrete run: one worker, batches of one
candidate, stop set from the fourth observation on, two fuel units. -/
theorem c6_amended_count_tracks_completed_witness :
    initialRunState.domainCount
        ≤ (check_domains "t" (fun _ => []) (fun n => decide (3 ≤ n))
            (fun _ => ["aaa.com"]) 2 initialRunState).domainCount ∧
      ((check_domains "t" (fun _ => []) (fun n => decide (3 ≤ n))
            (fun _ => ["aaa.com"]) 2 initialRunState).domainCount
          = (check_domains "t" (fun _ => []) (fun n => decide (3 ≤ n))
            (fun _ => ["aaa.com"]) 2 initialRunState).completedProbes ∨
        (check_domains "t" (fun _ => []) (fun n => decide (3 ≤ n))
            (fun _ => ["aaa.com"]) 2 initialRunState).domainCount
          = (check_domains "t" (fun _ => []) (fun n => decide (3 ≤ n))
            (fun _ => ["aaa.com"]) 2 initialRunState).completedProbes + 1) :=
  c6_amended_count_tracks_completed "t" (fun _ => []) (fun n => decide (3 ≤ n))
    (by
      intro m n hmn hm
      simp only [decide_eq_true_eq] at hm ⊢
      omega)
    (fun _ => ["aaa.com"]) 2 initialRunState rfl

/-- C6 (counterexample): with the stop flag set between a candidate's
for-loop check (observation 1) and `check_txt`'s stop check (observation
2), the run counts one processed candidate while zero probe attempts
completed — the count does not equal the number of completed probes
excluding skipped candidates, refuting the claimed equality. -/
theorem c6_counterexample_counted_but_skipped :
    ((check_domains "t" (fun _ => []) (fun n => decide (2 ≤ n))
        (fun _ => ["aaa.com"]) 1 initialRunState).domainCount = 1) ∧
      ((check_domains "t" (fun _ => []) (fun n => decide (2 ≤ n))
        (fun _ => ["aaa.com"]) 1 initialRunState).completedProbes = 0) ∧
      (1 : Nat) ≠ 0 := by
  refine ⟨by decide, by decide, by decide⟩

/-! ## C1: the auto-mode coordinator and the time bound

In auto mode (txtchecker.py lines 234-243) the coordinator runs
`for future in as_completed(futures):` and performs the time-bound check
(lines 241-242) inside the loop body.  `as_completed` with no timeout
argument blocks until some future completes, so the body — and with it the
only place that sets the stop flag on time-bound expiry — runs only after
at least one worker has returned.  An auto-mode worker (`check_domains`,
line 144) returns only after observing the stop flag set: its `while` loop
has no other exit.  The transition system below has exactly these two
events (the operator interrupt, which the claim sets aside, is not a
transition). -/

structure CoordState where
  stopped : Bool
  joined : Nat
deriving DecidableEq, Repr

def initialCoordState : CoordState := { stopped := false, joined := 0 }

/-- One coordinator-visible event of the auto-mode run with `W` workers:
a worker can return (and be joined) only once the stop flag is set, and the
time-bound check can set the stop flag only once `as_completed` has yielded
at least one completed future. -/
inductive AutoCoordStep (W : Nat) : CoordState → CoordState → Prop
  | workerReturns (s : CoordState) (hstop : s.stopped = true)
      (hlt : s.joined < W) :
      AutoCoordStep W s { s with joined := s.joined + 1 }
  | timeBoundFires (s : CoordState) (hyield : 1 ≤ s.joined) :
      AutoCoordStep W s { s with stopped := true }

/-- States the auto-mode run can reach from its start. -/
def CoordReachable (W : Nat) (s : CoordState) : Prop :=
  Relation.ReflTransGen (AutoCoordStep W) initialCoordState s

/-- The run has terminated: the stop flag is set and all `W` workers have
been joined. -/
def coordTerminated (W : Nat) (s : CoordState) : Prop :=
  s.stopped = true ∧ s.joined = W

/-- C1 (code bug evidence): in a continuous/random-mode run with a time
bound and no operator interrupt, the coordinator never sets the stop flag
and never joins a worker — the time-bound check is only reachable after a
future completes, while every worker completes only after the stop flag is
set.  In particular no reachable state of a run with at least one worker is
terminated: the run hangs indefinitely instead of stopping shortly after
the bound. -/
theorem c1_time_bound_never_fires (W : Nat) (s : CoordState)
    (h : CoordReachable W s) :
    s.stopped = false ∧ s.joined = 0 ∧ ¬ coordTerminated W s := by
  induction h with
  | refl =>
    refine ⟨rfl, rfl, ?_⟩
    intro ⟨ht, _⟩
    cases ht
  | tail _ hstep ih =>
    cases hstep with
    | workerReturns hstop hlt =>
      rw [ih.1] at hstop
      cases hstop
    | timeBoundFires hyield =>
      rw [ih.2.1] at hyield
      exact absurd hyield (by decide)

/-- Witness for C1 at the initial state of a one-worker run. -/
theorem c1_time_bound_never_fires_witness :
    initialCoordState.stopped = false ∧ initialCoordState.joined = 0 ∧
      ¬ coordTerminated 1 initialCoordState :=
  c1_time_bound_never_fires 1 initialCoordState Relation.ReflTransGen.refl

/-! ## C7: the shared counter increment is not atomic

`domain_count += 1` (txtchecker.py lines 149 and 161) is a read of the
global, an add, and a store — three interpreter steps with no lock, between
which the thread scheduler may interleave other workers.  The machine below
executes read and write micro-operations of `W` workers against the shared
counter; a schedule is any interleaving of the workers' programs. -/

/-- A micro-operation of `domain_count += 1`: worker `w` loads the shared
counter into its local temporary, or stores its temporary plus one back. -/
inductive IncOp where
  | readCtr (w : Nat)
  | writeCtr (w : Nat)
deriving DecidableEq, Repr

def opOwner : IncOp → Nat
  | .readCtr w => w
  | .writeCtr w => w

structure IncMachine where
  counter : Nat
  regs : Nat → Nat

def initialIncMachine : IncMachine := { counter := 0, regs := fun _ => 0 }

def incStep (s : IncMachine) : IncOp → IncMachine
  | .readCtr w => { s with regs := Function.update s.regs w s.counter }
  | .writeCtr w => { s with counter := s.regs w + 1 }

def incExec (ops : List IncOp) (s : IncMachine) : IncMachine :=
  ops.foldl incStep s

/-- Worker `w`'s program performing `n` unsynchronized increments. -/
def incProgram (w n : Nat) : List IncOp :=
  (List.replicate n [IncOp.readCtr w, IncOp.writeCtr w]).flatten

/-- `sched` is a valid interleaving of worker 0's and worker 1's programs of
`n` increments each: restricted to either worker it is exactly that
worker's program, and it contains no other operations. -/
def isInterleaving2 (sched : List IncOp) (n : Nat) : Prop :=
  sched.filter (fun op => opOwner op == 0) = incProgram 0 n ∧
    sched.filter (fun op => opOwner op == 1) = incProgram 1 n ∧
    ∀ op ∈ sched, opOwner op = 0 ∨ opOwner op = 1

/-- C7 (code bug evidence): with `W = 2` workers each incrementing once,
the interleaving read₀, read₁, write₀, write₁ — a valid schedule of the
unsynchronized `domain_count += 1` — leaves the shared counter at 1, not at
`W × N = 2`: one update is lost, refuting the claim that the increment is
atomic or lock-protected. -/
theorem c7_lost_update_interleaving :
    isInterleaving2
        [IncOp.readCtr 0, IncOp.readCtr 1, IncOp.writeCtr 0, IncOp.writeCtr 1]
        1 ∧
      (incExec
        [IncOp.readCtr 0, IncOp.readCtr 1, IncOp.writeCtr 0, IncOp.writeCtr 1]
        initialIncMachine).counter = 1 ∧
      (1 : Nat) ≠ 2 * 1 := by
  refine ⟨⟨by decide, by decide, by decide⟩, by decide, by decide⟩
